import Mathlib

/-!
Shallow embedding of the Test-Run Retry Orchestrator
(`src/graph/ui_executor/nodes.py`, `src/graph/ui_executor/state.py`,
`src/memory/memory_store.py`) and proofs about its routing, parsing,
configuration and persistence behaviour.

Modelling conventions:
* the Python `UIExecState` `TypedDict` becomes a structure of `Option` fields
  (`none` = key absent); `dict.get(k, d)` becomes `Option.getD`,
  `dict.setdefault` becomes `setdefaultO`;
* Python strings are Lean `String`s; `str.lower()` is modelled with
  `Char.toLower` (faithful on the ASCII inputs this program handles);
  `sub in s` is substring containment `strContains`;
* `int(x or 1)` on a possibly-absent integer field becomes `pyIntOr1`;
* the filesystem read of the JUnit XML report is modelled by passing the
  parsed report as `Option (List TestCaseXml)` (`none` = file missing);
  element lookup `tc.find("failure")` becomes an `Option FailureEl` field;
* the `time` attribute is carried as its raw string (its float conversion
  plays no role in any property proved here);
* the SQLite store (`runs` + `results` rows joined by `run_id`) becomes a
  list of `RunRecord`s each owning its result rows; `CURRENT_TIMESTAMP` and
  `datetime('now', '-N days')` become an explicit integer clock measured in
  days.
-/

namespace UIExec

/-- Python `str.strip()` whitespace set (space, tab, LF, CR, VT, FF). -/
def pyIsSpace (c : Char) : Bool :=
  c == ' ' || c == '\t' || c == '\n' || c == '\r' || c == '\x0b' || c == '\x0c'

/-- Python `str.strip()`: drop leading and trailing whitespace. -/
def pyStrip (s : String) : String :=
  String.mk (((s.toList.dropWhile pyIsSpace).reverse.dropWhile pyIsSpace).reverse)

/-- Python `str.lower()` (ASCII case folding, as used by the classifier). -/
def lowerStr (s : String) : String :=
  String.mk (s.toList.map Char.toLower)

/-- Substring test on character lists: does `sub` occur contiguously in `s`? -/
def containsSub (s sub : List Char) : Bool :=
  sub.isPrefixOf s ||
    match s with
    | [] => false
    | _ :: t => containsSub t sub

/-- Python `sub in s` substring containment on strings. -/
def strContains (s sub : String) : Bool :=
  containsSub s.toList sub.toList

/-- Python `dict.setdefault k d` restricted to one field: fill only if absent. -/
def setdefaultO {A : Type} (o : Option A) (d : A) : Option A :=
  match o with
  | none => some d
  | some v => some v

/-- Python `int(state.get(k, 1) or 1)`: absent or falsy (zero) reads as 1. -/
def pyIntOr1 (o : Option Nat) : Nat :=
  match o with
  | none => 1
  | some v => if v == 0 then 1 else v

/-- Summary dictionary `{"total", "passed", "failed", "skipped"}`. -/
structure Summary where
  total : Nat
  passed : Nat
  failed : Nat
  skipped : Nat
deriving DecidableEq, Repr

/-- The empty summary dictionary (also what `{}.get` yields for each count). -/
def emptySummary : Summary := ⟨0, 0, 0, 0⟩

/-- One parsed test case dictionary as built by `parse_results`, with the
optional `llm_label` key that `llm_triage` may add to failed cases. -/
structure Case where
  name : String
  suite : String
  time_s : String
  status : String
  message : String
  details : String
  attempt : Nat
  project : String
  llm_label : Option String
deriving DecidableEq, Repr

/-- The `UIExecState` TypedDict (`total=False`: every key may be absent). -/
structure UIExecState where
  project : Option String
  cwd : Option String
  cmd : Option (List String)
  junit_path : Option String
  env : Option (List (String × String))
  attempt : Option Nat
  max_attempts : Option Nat
  approved : Option Bool
  results : Option (List Case)
  summary : Option Summary
  errors : Option (List String)
  policy : Option String
  retry_scope : Option String
  llm_summary : Option String
  memory_notes : Option (List String)
deriving DecidableEq, Repr

/-- The state with no key set. -/
def blankState : UIExecState :=
  ⟨none, none, none, none, none, none, none, none, none, none, none, none,
   none, none, none⟩

/-- Node 1 `prepare_config`: fill every unset field with its default. -/
def prepare_config (s : UIExecState) : UIExecState :=
  { s with
    project := setdefaultO s.project "ui",
    cwd := setdefaultO s.cwd ".",
    cmd := setdefaultO s.cmd ["npm", "run", "test:ui"],
    junit_path := setdefaultO s.junit_path "results/junit-ui.xml",
    env := setdefaultO s.env [],
    attempt := setdefaultO s.attempt 1,
    max_attempts := setdefaultO s.max_attempts 2,
    approved := setdefaultO s.approved true,
    results := setdefaultO s.results [],
    summary := setdefaultO s.summary emptySummary,
    errors := setdefaultO s.errors [],
    policy := setdefaultO s.policy "flaky_only",
    retry_scope := setdefaultO s.retry_scope "full",
    llm_summary := setdefaultO s.llm_summary "" }

/-- One `<failure>` element: `message` attribute, own `text`, and for each
child element its `text` and `tail` (the shape `parse_results` reads). -/
structure FailureEl where
  message : Option String
  text : Option String
  children : List (Option String × Option String)
deriving DecidableEq, Repr

/-- One `<testcase>` element of the JUnit report, as read by `parse_results`:
attributes plus the optional first `<failure>` / `<skipped>` children. -/
structure TestCaseXml where
  name : String
  classname : String
  time : String
  failure : Option FailureEl
  skipped : Bool
deriving DecidableEq, Repr

/-- A Python truthiness filter for optional text fragments:
`if child.text: parts.append(child.text)`. -/
def pushText (o : Option String) : List String :=
  match o with
  | none => []
  | some t => if t == "" then [] else [t]

/-- Full failure detail text: failure element text plus each child's text and
tail, stripped, empty fragments dropped, newline-joined. -/
def detailsOf (f : FailureEl) : String :=
  let parts : List String :=
    pushText f.text ++
      (f.children.map (fun ch => pushText ch.1 ++ pushText ch.2)).flatten
  String.intercalate "\n"
    ((parts.filter (fun p => !(p == "") && !(pyStrip p == ""))).map pyStrip)

/-- Turn one `<testcase>` element into a result-case dictionary, tagged with
the current attempt number (the per-case body of the `parse_results` loop). -/
def parseCase (attempt_now : Nat) (tc : TestCaseXml) : Case :=
  match tc.failure with
  | some f =>
    { name := tc.name, suite := tc.classname, time_s := tc.time,
      status := "failed", message := pyStrip (f.message.getD ""),
      details := detailsOf f, attempt := attempt_now, project := "UI",
      llm_label := none }
  | none =>
    { name := tc.name, suite := tc.classname, time_s := tc.time,
      status := if tc.skipped then "skipped" else "passed", message := "",
      details := "", attempt := attempt_now, project := "UI",
      llm_label := none }

/-- The error entry appended when the report file is missing. -/
def junitMissingMsg (s : UIExecState) : String :=
  "[parse_results] JUnit not found at: " ++ s.cwd.getD "." ++ "/" ++
    s.junit_path.getD "results/junit-ui.xml"

/-- Node 3 `parse_results`: `report = none` models a missing report file
(structured error, state otherwise untouched); `report = some tcs` models a
successful parse of the XML testcase list. -/
def parse_results (report : Option (List TestCaseXml)) (s : UIExecState) :
    UIExecState :=
  match report with
  | none =>
    { s with errors := some (s.errors.getD [] ++ [junitMissingMsg s]) }
  | some testcases =>
    let attempt_now := pyIntOr1 s.attempt
    let cases := testcases.map (parseCase attempt_now)
    let total := testcases.length
    let passed := cases.countP (fun c => c.status == "passed")
    let failed := cases.countP (fun c => c.status == "failed")
    let skipped :=
      cases.countP (fun c => !(c.status == "passed") && !(c.status == "failed"))
    { s with
      results := some (s.results.getD [] ++ cases),
      summary := some ⟨total, passed, failed, skipped⟩ }

/-- The fixed `transient_signals` substring tuple of
`_is_retry_eligible_ui`. -/
def transientSignals : List String :=
  ["not visible", "timeout", "timed out", "network", "navigation",
   "to be visible"]

/-- Helper `_is_retry_eligible_ui`: rule-based flaky classifier. -/
def is_retry_eligible_ui (c : Case) : Bool :=
  let title := lowerStr c.name
  let msg := lowerStr c.message
  let details := lowerStr c.details
  if strContains title "@flaky" then true
  else
    transientSignals.any (fun sig => strContains msg sig) ||
      transientSignals.any (fun sig => strContains details sig)

/-- The failed cases of the current attempt, as the router selects them. -/
def failedCasesNow (s : UIExecState) : List Case :=
  (s.results.getD []).filter
    (fun c => c.attempt == pyIntOr1 s.attempt && c.status == "failed")

/-- Router `decide_after_approval`: returns "retry" or "end". -/
def decide_after_approval (s : UIExecState) : String :=
  if (s.summary.getD emptySummary).failed = 0 then "end"
  else if s.policy = some "none" then "end"
  else if s.approved = some false then "end"
  else if pyIntOr1 s.max_attempts ≤ pyIntOr1 s.attempt then "end"
  else if s.policy = some "always" then "retry"
  else if (failedCasesNow s).any (fun c => c.llm_label.isSome) then
    if (failedCasesNow s).any
        (fun c => lowerStr (c.llm_label.getD "") == "transient") then "retry"
    else "end"
  else if (failedCasesNow s).any is_retry_eligible_ui then "retry"
  else "end"

/-- Node 5 `retry_once`: bump the attempt counter. -/
def retry_once (s : UIExecState) : UIExecState :=
  { s with attempt := some (pyIntOr1 s.attempt + 1) }

/-- Iterated attempts: parse one report per attempt, bumping the attempt
counter between attempts (the Executing → Parsing → Retrying loop; the
execution and triage nodes do not touch `results` or `attempt`). -/
def runAttempts (reports : List (List TestCaseXml)) (s : UIExecState) :
    UIExecState :=
  match reports with
  | [] => s
  | r :: rest => runAttempts rest (retry_once (parse_results (some r) s))

/-- One row of the `results` table (run linkage is by containment below). -/
structure ResultRow where
  name : String
  suite : String
  status : String
  message : String
  details : String
  attempt : Nat
deriving DecidableEq, Repr

/-- One row of the `runs` table together with its associated result rows
(the `run_id` foreign key is modelled by containment). -/
structure RunRecord where
  project : String
  ts : Int
  total : Nat
  passed : Nat
  failed : Nat
  skipped : Nat
  llm_summary : String
  rows : List ResultRow
deriving DecidableEq, Repr

/-- Insert of one case dictionary into the `results` table. -/
def caseToRow (c : Case) : ResultRow :=
  { name := c.name, suite := c.suite, status := c.status,
    message := c.message, details := c.details, attempt := c.attempt }

/-- Memory-store `save_run`: one new run row (timestamped `now`) plus one
result row per case, appended to the store. -/
def save_run (now : Int) (store : List RunRecord) (project : String)
    (summary : Summary) (results : List Case) (llm_summary : String) :
    List RunRecord :=
  store ++
    [{ project := project, ts := now, total := summary.total,
       passed := summary.passed, failed := summary.failed,
       skipped := summary.skipped, llm_summary := llm_summary,
       rows := results.map caseToRow }]

/-- The SQL row predicate
`r.name = ? AND r.status = 'failed' AND r.message = ?`. -/
def rowMatches (name message : String) (r : ResultRow) : Bool :=
  r.name == name && r.status == "failed" && r.message == message

/-- Memory-store `find_recurrences`: count matching failed result rows,
joined to their run, restricted (when `days` is given) to runs whose
timestamp satisfies `u.ts >= now - days`. -/
def find_recurrences (now : Int) (store : List RunRecord)
    (name message : String) (days : Option Nat) : Nat :=
  match days with
  | some d =>
    ((store.filter (fun u => decide (now - (d : Int) ≤ u.ts))).map
      (fun u => (u.rows.filter (rowMatches name message)).length)).sum
  | none =>
    (store.map (fun u => (u.rows.filter (rowMatches name message)).length)).sum

/-- The recurrence note `persist_to_memory` produces for one failed case. -/
def recurrenceNote (now : Int) (store : List RunRecord) (c : Case) : String :=
  let count := find_recurrences now store c.name c.message (some 7)
  if 1 < count then
    c.name ++ ": seen " ++ toString count ++ " times in last 7 days"
  else c.name ++ ": NEW failure"

/-- Node 7 `persist_to_memory`: save the run, then annotate each failed case
with its 7-day recurrence count queried from the just-updated store.
Returns the updated store together with the updated state. -/
def persist_to_memory (now : Int) (store : List RunRecord)
    (s : UIExecState) : List RunRecord × UIExecState :=
  let summary := s.summary.getD emptySummary
  let results := s.results.getD []
  let llm_summary := s.llm_summary.getD ""
  let store2 := save_run now store "UI" summary results llm_summary
  let notes := results.filterMap
    (fun c =>
      if c.status == "failed" then some (recurrenceNote now store2 c)
      else none)
  (store2, { s with memory_notes := some notes })

/-! Helper lemmas shared by several proofs. -/

theorem setdefaultO_eq {A : Type} (o : Option A) (d : A) :
    setdefaultO o d = some (o.getD d) := by
  cases o <;> rfl

theorem pyIntOr1_some {a : Nat} (ha : 1 ≤ a) : pyIntOr1 (some a) = a := by
  have h0 : ¬ a = 0 := by omega
  simp [pyIntOr1, h0]

theorem parse_results_some_results (s : UIExecState) (tcs : List TestCaseXml) :
    (parse_results (some tcs) s).results =
      some (s.results.getD [] ++ tcs.map (parseCase (pyIntOr1 s.attempt))) :=
  rfl

theorem parse_results_some_attempt (s : UIExecState) (tcs : List TestCaseXml) :
    (parse_results (some tcs) s).attempt = s.attempt :=
  rfl

theorem retry_once_results (s : UIExecState) :
    (retry_once s).results = s.results :=
  rfl

theorem retry_once_attempt (s : UIExecState) :
    (retry_once s).attempt = some (pyIntOr1 s.attempt + 1) :=
  rfl

/-! Claim C8: configuration defaults. -/

/-- Claim C8: `prepare_config` fills each unset field with its documented
default — project "ui", working directory ".", report path
"results/junit-ui.xml", max attempts 2, policy "flaky_only", retry scope
"full", approved true — and leaves every field the caller already set
unchanged (each equation below reads: the output field is the input field
when set, else the default).  The merge is a total function with no failure
mode. -/
theorem prepare_config_defaults (s : UIExecState) :
    (prepare_config s).project = some (s.project.getD "ui") ∧
    (prepare_config s).cwd = some (s.cwd.getD ".") ∧
    (prepare_config s).junit_path =
      some (s.junit_path.getD "results/junit-ui.xml") ∧
    (prepare_config s).max_attempts = some (s.max_attempts.getD 2) ∧
    (prepare_config s).policy = some (s.policy.getD "flaky_only") ∧
    (prepare_config s).retry_scope = some (s.retry_scope.getD "full") ∧
    (prepare_config s).approved = some (s.approved.getD true) ∧
    (prepare_config s).attempt = some (s.attempt.getD 1) ∧
    (prepare_config s).cmd = some (s.cmd.getD ["npm", "run", "test:ui"]) ∧
    (prepare_config s).results = some (s.results.getD []) ∧
    (prepare_config s).summary = some (s.summary.getD emptySummary) ∧
    (prepare_config s).errors = some (s.errors.getD []) := by
  refine ⟨?_, ?_, ?_, ?_, ?_, ?_, ?_, ?_, ?_, ?_, ?_, ?_⟩ <;>
    simp [prepare_config, setdefaultO_eq]

/-! Claim C3: missing report file. -/

/-- A state mid-run at attempt 2 whose first attempt parsed 2 cases, one of
which failed. -/
def staleSummaryState : UIExecState :=
  { blankState with
    attempt := some 2, max_attempts := some 2,
    summary := some ⟨2, 1, 1, 0⟩, errors := some [] }

/-- Claim C3 counterexample: on a retry attempt whose previous attempt had
non-zero counts, a missing report file leaves the previous attempt's summary
in place — the attempt's summary is not reset to all-zero as claimed. -/
theorem parse_results_missing_stale_counterexample :
    staleSummaryState.attempt = some 2 ∧
    (parse_results none staleSummaryState).errors =
      some ["[parse_results] JUnit not found at: ./results/junit-ui.xml"] ∧
    (parse_results none staleSummaryState).summary =
      some ⟨2, 1, 1, 0⟩ ∧
    ¬ (parse_results none staleSummaryState).summary = some ⟨0, 0, 0, 0⟩ := by
  refine ⟨rfl, by decide, rfl, by decide⟩

/-- Claim C3 (amended): when the report file is missing, `parse_results`
appends one structured error entry and returns without aborting; the
summary and the accumulated results are left unchanged (so they are empty
only when they already were — e.g. right after `prepare_config` on a first
attempt — while a retry attempt keeps the previous attempt's counts). -/
theorem parse_results_missing_report (s : UIExecState) :
    (parse_results none s).errors =
      some (s.errors.getD [] ++ [junitMissingMsg s]) ∧
    (parse_results none s).summary = s.summary ∧
    (parse_results none s).results = s.results ∧
    (parse_results none s).attempt = s.attempt :=
  ⟨rfl, rfl, rfl, rfl⟩

/-! Claim C2: policy "always" routing. -/

/-- A state under policy "always" with a failure, attempts remaining, and
approval explicitly denied. -/
def deniedAlwaysState : UIExecState :=
  { blankState with
    policy := some "always", approved := some false,
    attempt := some 1, max_attempts := some 2,
    summary := some ⟨1, 0, 1, 0⟩,
    results := some [{ name := "a", suite := "s", time_s := "0",
                       status := "failed", message := "boom", details := "",
                       attempt := 1, project := "UI", llm_label := none }] }

/-- Claim C2 counterexample: with policy "always", a failure, and attempts
remaining, explicitly denied approval still routes to "end" — the approved
flag is checked before the "always" policy. -/
theorem decide_always_denied_counterexample :
    deniedAlwaysState.policy = some "always" ∧
    0 < (deniedAlwaysState.summary.getD emptySummary).failed ∧
    pyIntOr1 deniedAlwaysState.attempt <
      pyIntOr1 deniedAlwaysState.max_attempts ∧
    decide_after_approval deniedAlwaysState = "end" ∧
    ¬ decide_after_approval deniedAlwaysState = "retry" := by
  refine ⟨rfl, by decide, by decide, by decide, by decide⟩

/-- Claim C2 (amended): with policy "always", a positive failed count and
attempts remaining, the router returns "retry" provided `approved` is not
explicitly false (absent approval defaults to proceeding; `approved = false`
ends the run even under policy "always"). -/
theorem decide_always_retries (s : UIExecState)
    (hpol : s.policy = some "always")
    (hfail : 0 < (s.summary.getD emptySummary).failed)
    (happ : ¬ s.approved = some false)
    (hatt : pyIntOr1 s.attempt < pyIntOr1 s.max_attempts) :
    decide_after_approval s = "retry" := by
  unfold decide_after_approval
  rw [if_neg (by omega), if_neg (by simp [hpol]), if_neg happ,
    if_neg (by omega), if_pos hpol]

/-- Claim C2 (amended) witness: a concrete always-policy state with one
failure, approval left unset, retries. -/
theorem decide_always_retries_witness :
    ({ deniedAlwaysState with approved := none } : UIExecState).policy =
      some "always" ∧
    0 < (({ deniedAlwaysState with approved := none } :
      UIExecState).summary.getD emptySummary).failed ∧
    ¬ ({ deniedAlwaysState with approved := none } : UIExecState).approved =
      some false ∧
    pyIntOr1 ({ deniedAlwaysState with approved := none } :
        UIExecState).attempt <
      pyIntOr1 ({ deniedAlwaysState with approved := none } :
        UIExecState).max_attempts ∧
    decide_after_approval
      ({ deniedAlwaysState with approved := none } : UIExecState) = "retry" :=
  ⟨rfl, by decide, by decide, by decide,
    decide_always_retries { deniedAlwaysState with approved := none } rfl
      (by decide) (by decide) (by decide)⟩

/-! Claims C1 and C5: label precedence in the router. -/

/-- A flaky_only state at attempt 1 of 2 with two failed cases: one labeled
"real" by the external classifier, one left unlabeled whose message carries
a transient signal (rule-eligible). -/
def labeledRealState : UIExecState :=
  { blankState with
    policy := some "flaky_only", approved := none,
    attempt := some 1, max_attempts := some 2,
    summary := some ⟨2, 0, 2, 0⟩,
    results := some
      [{ name := "a", suite := "s", time_s := "0", status := "failed",
         message := "assert equal failed", details := "", attempt := 1,
         project := "UI", llm_label := some "real" },
       { name := "b", suite := "s", time_s := "0", status := "failed",
         message := "Timeout waiting for element", details := "",
         attempt := 1, project := "UI", llm_label := none }] }

/-- Claim C1 counterexample: under policy "flaky_only" with approval not
denied and attempts remaining, when one failed case of the current attempt
is labeled "real" and the other is unlabeled but rule-eligible, the router
returns "end", not "retry" — the unlabeled case does not fall through to
the rule-based tier once any label is present. -/
theorem decide_unlabeled_no_fallthrough_counterexample :
    labeledRealState.policy = some "flaky_only" ∧
    0 < (labeledRealState.summary.getD emptySummary).failed ∧
    ¬ labeledRealState.approved = some false ∧
    pyIntOr1 labeledRealState.attempt <
      pyIntOr1 labeledRealState.max_attempts ∧
    (failedCasesNow labeledRealState).all
      (fun c => !(lowerStr (c.llm_label.getD "") == "transient")) = true ∧
    (failedCasesNow labeledRealState).any
      (fun c => c.llm_label == some "real") = true ∧
    (failedCasesNow labeledRealState).any is_retry_eligible_ui = true ∧
    decide_after_approval labeledRealState = "end" ∧
    ¬ decide_after_approval labeledRealState = "retry" := by
  refine ⟨rfl, by decide, by decide, by decide, by decide, by decide,
    by decide, by decide, by decide⟩

/-- Claim C1 (amended): the rule-based tier decides only when the external
classifier labeled none of the current attempt's failed cases: for every
state with failed > 0, policy "flaky_only", approval not denied, attempts
remaining, where no failed case of the current attempt carries any external
label and at least one is rule-eligible, the router returns "retry".  (When
some case does carry a label — e.g. "real" — and none is "transient", the
router returns "end" without consulting the rules, per the counterexample.) -/
theorem decide_unlabeled_falls_back_to_rules (s : UIExecState)
    (hpol : s.policy = some "flaky_only")
    (hfail : 0 < (s.summary.getD emptySummary).failed)
    (happ : ¬ s.approved = some false)
    (hatt : pyIntOr1 s.attempt < pyIntOr1 s.max_attempts)
    (hnolabel : (failedCasesNow s).all (fun c => c.llm_label.isNone) = true)
    (helig : (failedCasesNow s).any is_retry_eligible_ui = true) :
    decide_after_approval s = "retry" := by
  unfold decide_after_approval
  rw [if_neg (by omega), if_neg (by simp [hpol]), if_neg happ,
    if_neg (by omega), if_neg (by simp [hpol])]
  have hno : (failedCasesNow s).any (fun c => c.llm_label.isSome) = false := by
    rw [List.any_eq_false]
    intro c hc
    have h1 := List.all_eq_true.mp hnolabel c hc
    simp only [Option.isNone_iff_eq_none] at h1
    simp [h1]
  simp [hno, helig]

/-- The labeled-real scenario with the external label removed from the
first case: both failed cases unlabeled, the second rule-eligible. -/
def unlabeledState : UIExecState :=
  { labeledRealState with
    results := some
      [{ name := "a", suite := "s", time_s := "0", status := "failed",
         message := "assert equal failed", details := "", attempt := 1,
         project := "UI", llm_label := none },
       { name := "b", suite := "s", time_s := "0", status := "failed",
         message := "Timeout waiting for element", details := "",
         attempt := 1, project := "UI", llm_label := none }] }

/-- Claim C1 (amended) witness: the same two failed cases with the "real"
label removed make the router fall back to the rules and retry. -/
theorem decide_unlabeled_falls_back_to_rules_witness :
    unlabeledState.policy = some "flaky_only" ∧
    0 < (unlabeledState.summary.getD emptySummary).failed ∧
    ¬ unlabeledState.approved = some false ∧
    pyIntOr1 unlabeledState.attempt < pyIntOr1 unlabeledState.max_attempts ∧
    (failedCasesNow unlabeledState).all
      (fun c => c.llm_label.isNone) = true ∧
    (failedCasesNow unlabeledState).any is_retry_eligible_ui = true ∧
    decide_after_approval unlabeledState = "retry" :=
  ⟨rfl, by decide, by decide, by decide, by decide, by decide,
    decide_unlabeled_falls_back_to_rules unlabeledState rfl (by decide)
      (by decide) (by decide) (by decide) (by decide)⟩

/-- A flaky_only state at attempt 1 of 2 with one transient-labeled failed
case and one unlabeled failed case. -/
def labeledTransientState : UIExecState :=
  { blankState with
    policy := some "flaky_only", approved := none,
    attempt := some 1, max_attempts := some 2,
    summary := some ⟨2, 0, 2, 0⟩,
    results := some
      [{ name := "a", suite := "s", time_s := "0", status := "failed",
         message := "boom", details := "", attempt := 1,
         project := "UI", llm_label := some "transient" },
       { name := "b", suite := "s", time_s := "0", status := "failed",
         message := "boom", details := "", attempt := 1,
         project := "UI", llm_label := none }] }

/-- Claim C5: for every state with policy "flaky_only", failed > 0,
approval not denied and attempts remaining, if at least one failed case of
the current attempt carries the external-classifier label "transient"
(others possibly unlabeled), the router returns "retry". -/
theorem decide_transient_label_retries (s : UIExecState)
    (hpol : s.policy = some "flaky_only")
    (hfail : 0 < (s.summary.getD emptySummary).failed)
    (happ : ¬ s.approved = some false)
    (hatt : pyIntOr1 s.attempt < pyIntOr1 s.max_attempts)
    (htr : (failedCasesNow s).any
      (fun c => c.llm_label == some "transient") = true) :
    decide_after_approval s = "retry" := by
  unfold decide_after_approval
  rw [if_neg (by omega), if_neg (by simp [hpol]), if_neg happ,
    if_neg (by omega), if_neg (by simp [hpol])]
  obtain ⟨c, hc, hlbl⟩ := List.any_eq_true.mp htr
  rw [beq_iff_eq] at hlbl
  have hsome : (failedCasesNow s).any (fun c => c.llm_label.isSome) = true :=
    List.any_eq_true.mpr ⟨c, hc, by simp [hlbl]⟩
  have htrl : (failedCasesNow s).any
      (fun c => lowerStr (c.llm_label.getD "") == "transient") = true :=
    List.any_eq_true.mpr ⟨c, hc, by rw [hlbl]; decide⟩
  simp [hsome, htrl]

/-- Claim C5 witness: the concrete two-case state (one "transient" label,
one unlabeled) retries. -/
theorem decide_transient_label_retries_witness :
    labeledTransientState.policy = some "flaky_only" ∧
    0 < (labeledTransientState.summary.getD emptySummary).failed ∧
    ¬ labeledTransientState.approved = some false ∧
    pyIntOr1 labeledTransientState.attempt <
      pyIntOr1 labeledTransientState.max_attempts ∧
    (failedCasesNow labeledTransientState).any
      (fun c => c.llm_label == some "transient") = true ∧
    decide_after_approval labeledTransientState = "retry" :=
  ⟨rfl, by decide, by decide, by decide, by decide,
    decide_transient_label_retries labeledTransientState rfl (by decide)
      (by decide) (by decide) (by decide)⟩

/-! Claim C4: the rule-based eligibility predicate. -/

/-- Case-insensitive substring containment (both sides lowercased). -/
def containsCI (s sub : String) : Bool :=
  strContains (lowerStr s) (lowerStr sub)

/-- Modelled from the spec's wording of the rule-based tier: a failed case
is retry-eligible iff its name contains the "@flaky" tag marker
case-insensitively, or its short message or full detail text contains,
case-insensitively, at least one of the fixed transient substrings. -/
def ruleEligibleSpec (c : Case) : Bool :=
  containsCI c.name "@flaky" ||
    transientSignals.any
      (fun sig => containsCI c.message sig || containsCI c.details sig)

/-- The spec's example case: flaky-tagged name, no transient substring in
message or details. -/
def flakyTagCase : Case :=
  { name := "login @flaky should succeed", suite := "auth", time_s := "0",
    status := "failed", message := "assert equal failed: expected 2 got 3",
    details := "", attempt := 1, project := "UI", llm_label := none }

/-- Claim C4: `_is_retry_eligible_ui` agrees with the spec's rule — flaky
tag in the name, or a transient substring in message or details, all
case-insensitively — on every case; and the concrete case named
"login @flaky should succeed", whose message and details contain none of
the transient substrings, is rule-eligible. -/
theorem is_retry_eligible_ui_spec :
    (∀ c : Case, is_retry_eligible_ui c = ruleEligibleSpec c) ∧
    (transientSignals.any
      (fun sig => containsCI flakyTagCase.message sig ||
        containsCI flakyTagCase.details sig)) = false ∧
    is_retry_eligible_ui flakyTagCase = true := by
  refine ⟨?_, by decide, by decide⟩
  intro c
  have hb : ∀ (a b : Bool), a = b ↔ (a = true ↔ b = true) := by decide
  have hlow : ∀ sig ∈ transientSignals, lowerStr sig = sig := by decide
  have hfl : lowerStr "@flaky" = "@flaky" := by decide
  have hunf : is_retry_eligible_ui c =
      (if strContains (lowerStr c.name) "@flaky" = true then true
       else
         (transientSignals.any fun sig => strContains (lowerStr c.message) sig)
           ||
           (transientSignals.any fun sig =>
             strContains (lowerStr c.details) sig)) := rfl
  rw [hunf, ruleEligibleSpec, containsCI, hfl]
  by_cases hname : strContains (lowerStr c.name) "@flaky" = true
  · simp [hname]
  · rw [Bool.not_eq_true] at hname
    rw [if_neg (by simp [hname]), hname, Bool.false_or, hb]
    simp only [Bool.or_eq_true, List.any_eq_true, containsCI]
    constructor
    · rintro (⟨sig, hsig, hc⟩ | ⟨sig, hsig, hc⟩)
      · exact ⟨sig, hsig, by rw [hlow sig hsig]; simp [hc]⟩
      · exact ⟨sig, hsig, by rw [hlow sig hsig]; simp [hc]⟩
    · rintro ⟨sig, hsig, hc⟩
      rw [hlow sig hsig] at hc
      rcases hc with hc | hc
      · exact Or.inl ⟨sig, hsig, hc⟩
      · exact Or.inr ⟨sig, hsig, hc⟩

/-! Claims C6 and C9: parsing, summary counting, accumulation, attempts. -/

theorem parseCase_status (a : Nat) (tc : TestCaseXml) :
    (parseCase a tc).status =
      if tc.failure.isSome then "failed"
      else if tc.skipped then "skipped" else "passed" := by
  cases h : tc.failure <;> simp [parseCase, h]

theorem parseCase_attempt (a : Nat) (tc : TestCaseXml) :
    (parseCase a tc).attempt = a := by
  cases h : tc.failure <;> simp [parseCase, h]

theorem length_tripartition (l : List Case) :
    l.length =
      l.countP (fun c => c.status == "passed") +
        l.countP (fun c => c.status == "failed") +
        l.countP
          (fun c => !(c.status == "passed") && !(c.status == "failed")) := by
  induction l with
  | nil => rfl
  | cons c t ih =>
    by_cases h1 : c.status = "passed" <;> by_cases h2 : c.status = "failed"
    · rw [h1] at h2; exact absurd h2 (by decide)
    all_goals
      simp only [List.countP_cons, List.length_cons]
      simp [h1, h2] at ih ⊢
      omega

theorem countP_skipped_of_parse (a : Nat) (tcs : List TestCaseXml) :
    (tcs.map (parseCase a)).countP
        (fun c => !(c.status == "passed") && !(c.status == "failed")) =
      (tcs.map (parseCase a)).countP (fun c => c.status == "skipped") := by
  refine List.countP_congr ?_
  intro x hx
  obtain ⟨tc, htc, rfl⟩ := List.mem_map.mp hx
  by_cases hf : tc.failure.isSome <;> by_cases hk : tc.skipped <;>
    simp [parseCase_status, hf, hk]

theorem parse_results_some_summary (s : UIExecState) (tcs : List TestCaseXml) :
    (parse_results (some tcs) s).summary =
      some ⟨tcs.length,
        (tcs.map (parseCase (pyIntOr1 s.attempt))).countP
          (fun c => c.status == "passed"),
        (tcs.map (parseCase (pyIntOr1 s.attempt))).countP
          (fun c => c.status == "failed"),
        (tcs.map (parseCase (pyIntOr1 s.attempt))).countP
          (fun c => !(c.status == "passed") && !(c.status == "failed"))⟩ :=
  rfl

theorem runAttempts_results_length (reports : List (List TestCaseXml)) :
    ∀ s : UIExecState,
      ((runAttempts reports s).results.getD []).length =
        (s.results.getD []).length + (reports.map List.length).sum := by
  induction reports with
  | nil => intro s; simp [runAttempts]
  | cons r rest ih =>
    intro s
    rw [runAttempts, ih, retry_once_results, parse_results_some_results]
    simp only [Option.getD_some, List.length_append, List.length_map,
      List.map_cons, List.sum_cons]
    omega

/-- Claim C6: after every successful parse, each case's status is "failed"
if a failure element is present, "skipped" if a skipped element is present
(and no failure element), else "passed"; the summary counts exactly the
cases of that parse (total = number of parsed cases, each count the number
of cases of that status, total = passed + failed + skipped); the parsed
cases are appended after the existing accumulated results; and over any
sequence of attempts the accumulated length is the initial length plus the
sum of per-attempt totals. -/
theorem parse_results_accumulation :
    (∀ (s : UIExecState) (tcs : List TestCaseXml),
      (parse_results (some tcs) s).results =
        some (s.results.getD [] ++
          tcs.map (parseCase (pyIntOr1 s.attempt)))) ∧
    (∀ (a : Nat) (tc : TestCaseXml),
      (parseCase a tc).status =
        if tc.failure.isSome then "failed"
        else if tc.skipped then "skipped" else "passed") ∧
    (∀ (s : UIExecState) (tcs : List TestCaseXml),
      (parse_results (some tcs) s).summary =
        some ⟨tcs.length,
          (tcs.map (parseCase (pyIntOr1 s.attempt))).countP
            (fun c => c.status == "passed"),
          (tcs.map (parseCase (pyIntOr1 s.attempt))).countP
            (fun c => c.status == "failed"),
          (tcs.map (parseCase (pyIntOr1 s.attempt))).countP
            (fun c => c.status == "skipped")⟩) ∧
    (∀ (s : UIExecState) (tcs : List TestCaseXml),
      ((parse_results (some tcs) s).summary.getD emptySummary).total =
        ((parse_results (some tcs) s).summary.getD emptySummary).passed +
          ((parse_results (some tcs) s).summary.getD emptySummary).failed +
          ((parse_results (some tcs) s).summary.getD emptySummary).skipped) ∧
    (∀ (s : UIExecState) (reports : List (List TestCaseXml)),
      ((runAttempts reports s).results.getD []).length =
        (s.results.getD []).length + (reports.map List.length).sum) := by
  refine ⟨parse_results_some_results, parseCase_status, ?_, ?_, ?_⟩
  · intro s tcs
    rw [parse_results_some_summary, countP_skipped_of_parse]
  · intro s tcs
    rw [parse_results_some_summary]
    simp only [Option.getD_some]
    have h := length_tripartition (tcs.map (parseCase (pyIntOr1 s.attempt)))
    rw [List.length_map] at h
    exact h
  · intro s reports
    exact runAttempts_results_length reports s

theorem runAttempts_attempt_inv (reports : List (List TestCaseXml)) :
    ∀ (s : UIExecState) (a : Nat), s.attempt = some a → 1 ≤ a →
      (∀ c ∈ s.results.getD [], 1 ≤ c.attempt ∧ c.attempt < a) →
      (runAttempts reports s).attempt = some (a + reports.length) ∧
        ∀ c ∈ (runAttempts reports s).results.getD [],
          1 ≤ c.attempt ∧ c.attempt < a + reports.length := by
  induction reports with
  | nil =>
    intro s a hs ha hinv
    simpa [runAttempts] using ⟨hs, hinv⟩
  | cons r rest ih =>
    intro s a hs ha hinv
    rw [runAttempts]
    have hpy : pyIntOr1 s.attempt = a := by rw [hs]; exact pyIntOr1_some ha
    have hs2 : (retry_once (parse_results (some r) s)).attempt =
        some (a + 1) := by
      rw [retry_once_attempt, parse_results_some_attempt, hpy]
    have hres2 : (retry_once (parse_results (some r) s)).results.getD [] =
        s.results.getD [] ++ r.map (parseCase a) := by
      rw [retry_once_results, parse_results_some_results, hpy,
        Option.getD_some]
    have hinv2 : ∀ c ∈ (retry_once (parse_results (some r) s)).results.getD
        [], 1 ≤ c.attempt ∧ c.attempt < a + 1 := by
      rw [hres2]
      intro c hc
      rcases List.mem_append.mp hc with h | h
      · have := hinv c h; omega
      · obtain ⟨tc, _, rfl⟩ := List.mem_map.mp h
        rw [parseCase_attempt]
        omega
    obtain ⟨h1, h2⟩ := ih (retry_once (parse_results (some r) s)) (a + 1)
      hs2 (by omega) hinv2
    have hlen : a + 1 + rest.length = a + (r :: rest).length := by
      simp [List.length_cons]; omega
    constructor
    · rw [h1, hlen]
    · intro c hc
      have := h2 c hc
      rw [List.length_cons]
      omega

/-- A state whose attempt counter is 5 (an arbitrary mid-run value). -/
def attemptFiveState : UIExecState := { blankState with attempt := some 5 }

/-- A passing test case element. -/
def passingTc : TestCaseXml :=
  { name := "t1", classname := "s", time := "0.1", failure := none,
    skipped := false }

/-- Claim C9: starting from a state with no attempt counter and no results,
`prepare_config` starts the attempt number at 1; each `retry_once` from any
attempt a ≥ 1 increments it by exactly 1; and after running any list of K
attempt reports, every accumulated result's attempt number lies in [1, K]. -/
theorem attempt_numbering (s0 : UIExecState)
    (reports : List (List TestCaseXml)) (sr : UIExecState) (a : Nat)
    (h1 : s0.attempt = none) (h2 : s0.results = none)
    (ha : 1 ≤ a) (hs : sr.attempt = some a) :
    (prepare_config s0).attempt = some 1 ∧
    (retry_once sr).attempt = some (a + 1) ∧
    ((runAttempts reports (prepare_config s0)).results.getD []).all
      (fun c => decide (1 ≤ c.attempt) &&
        decide (c.attempt ≤ reports.length)) = true := by
  have hpc : (prepare_config s0).attempt = some 1 := by
    simp [prepare_config, setdefaultO, h1]
  refine ⟨hpc, ?_, ?_⟩
  · rw [retry_once_attempt, hs, pyIntOr1_some ha]
  · have hres : (prepare_config s0).results.getD [] = [] := by
      simp [prepare_config, setdefaultO, h2]
    obtain ⟨_, hbound⟩ := runAttempts_attempt_inv reports (prepare_config s0)
      1 hpc (le_refl 1) (by rw [hres]; intro c hc; cases hc)
    rw [List.all_eq_true]
    intro c hc
    have := hbound c hc
    simp only [Bool.and_eq_true, decide_eq_true_eq]
    omega

/-- Claim C9 witness: one concrete one-attempt run from the blank state,
and one concrete increment from attempt 5. -/
theorem attempt_numbering_witness :
    blankState.attempt = none ∧ blankState.results = none ∧
    (1 : Nat) ≤ 5 ∧ attemptFiveState.attempt = some 5 ∧
    ((prepare_config blankState).attempt = some 1 ∧
      (retry_once attemptFiveState).attempt = some (5 + 1) ∧
      ((runAttempts [[passingTc]]
          (prepare_config blankState)).results.getD []).all
        (fun c => decide (1 ≤ c.attempt) &&
          decide (c.attempt ≤ [[passingTc]].length)) = true) :=
  ⟨rfl, rfl, by decide, rfl,
    attempt_numbering blankState [[passingTc]] attemptFiveState 5 rfl rfl
      (by decide) rfl⟩

/-! Claim C7: recurrence counting. -/

/-- Every persisted result row paired with its run's timestamp (the SQL
join of `results` with `runs`). -/
def allRows (store : List RunRecord) : List (Int × ResultRow) :=
  (store.map (fun u => u.rows.map (fun r => (u.ts, r)))).flatten

/-- Modelled from the spec: the count of persisted result rows whose status
is "failed" and whose name and message both exactly equal the arguments,
restricted to rows whose run-level timestamp lies within the trailing
`d`-day window. -/
def recurrencesSpec (now : Int) (store : List RunRecord)
    (name message : String) (d : Nat) : Nat :=
  (allRows store).countP
    (fun p => p.2.status == "failed" && p.2.name == name &&
      p.2.message == message && decide (now - (d : Int) ≤ p.1))

theorem find_recurrences_eq_spec (now : Int) (name message : String)
    (d : Nat) :
    ∀ store : List RunRecord,
      find_recurrences now store name message (some d) =
        recurrencesSpec now store name message d := by
  have hb1 : ∀ (x y z : Bool), (x && y && z && true) = ((y && x) && z) := by
    decide
  have hb0 : ∀ (x y z : Bool), (x && y && z && false) = false := by decide
  intro store
  induction store with
  | nil => rfl
  | cons u t ih =>
    have hsplit : allRows (u :: t) =
        u.rows.map (fun r => (u.ts, r)) ++ allRows t := rfl
    simp only [find_recurrences] at ih ⊢
    simp only [recurrencesSpec, hsplit, List.countP_append, List.countP_map,
      List.filter_cons] at ih ⊢
    by_cases hw : now - (d : Int) ≤ u.ts
    · rw [if_pos (by simpa using hw)]
      simp only [List.map_cons, List.sum_cons]
      rw [ih]
      congr 1
      rw [List.countP_eq_length_filter]
      refine congrArg List.length (List.filter_congr ?_)
      intro r _
      simp only [Function.comp]
      rw [decide_eq_true hw, hb1, rowMatches]
    · rw [if_neg (by simpa using hw)]
      rw [ih]
      have hz : (List.countP
          ((fun p : Int × ResultRow =>
            p.2.status == "failed" && p.2.name == name &&
              p.2.message == message && decide (now - (d : Int) ≤ p.1)) ∘
            (fun r => (u.ts, r))) u.rows) = 0 := by
        rw [List.countP_eq_zero]
        intro r _
        simp only [Function.comp]
        rw [decide_eq_false hw, hb0]
        simp
      rw [hz]
      omega

/-- Claim C7: `find_recurrences now store name message (some d)` counts
exactly the persisted result rows with status "failed" and exact equality
on both name and message whose run timestamp lies within the trailing
`d`-day window (no fuzzy or prefix matching — the spec-side count uses
exact string equality); and against the empty store it returns 0 for every
name, message and window. -/
theorem find_recurrences_spec_correct :
    (∀ (now : Int) (store : List RunRecord) (name message : String)
      (d : Nat),
      find_recurrences now store name message (some d) =
        recurrencesSpec now store name message d) ∧
    (∀ (now : Int) (name message : String) (d : Nat),
      find_recurrences now [] name message (some d) = 0) :=
  ⟨fun now store name message d =>
    find_recurrences_eq_spec now name message d store,
   fun _ _ _ _ => rfl⟩

/-! Claim C10: persistence order and recurrence annotation. -/

theorem find_recurrences_append (now : Int) (name message : String)
    (d : Nat) (s1 s2 : List RunRecord) :
    find_recurrences now (s1 ++ s2) name message (some d) =
      find_recurrences now s1 name message (some d) +
        find_recurrences now s2 name message (some d) := by
  simp only [find_recurrences, List.filter_append, List.map_append,
    List.sum_append]

theorem find_recurrences_eq_zero_of_no_match (now : Int)
    (name message : String) (d : Nat) (store : List RunRecord)
    (h : ∀ u ∈ store, ∀ r ∈ u.rows, rowMatches name message r = false) :
    find_recurrences now store name message (some d) = 0 := by
  simp only [find_recurrences]
  rw [List.sum_eq_zero]
  intro x hx
  obtain ⟨u, hu, rfl⟩ := List.mem_map.mp hx
  have hu2 := List.mem_filter.mp hu
  rw [List.length_eq_zero, List.filter_eq_nil_iff]
  intro r hr
  rw [h u hu2.1 r hr]
  simp

theorem persist_store_eq (now : Int) (store : List RunRecord)
    (s : UIExecState) :
    (persist_to_memory now store s).1 =
      store ++
        [{ project := "UI", ts := now,
           total := (s.summary.getD emptySummary).total,
           passed := (s.summary.getD emptySummary).passed,
           failed := (s.summary.getD emptySummary).failed,
           skipped := (s.summary.getD emptySummary).skipped,
           llm_summary := s.llm_summary.getD "",
           rows := (s.results.getD []).map caseToRow }] :=
  rfl

theorem persist_notes_eq (now : Int) (store : List RunRecord)
    (s : UIExecState) :
    (persist_to_memory now store s).2.memory_notes =
      some ((s.results.getD []).filterMap
        (fun c =>
          if c.status == "failed" then
            some (recurrenceNote now (persist_to_memory now store s).1 c)
          else none)) :=
  rfl

/-- A run in which the same test failed with the same message on both
attempt 1 and attempt 2 (a retry that did not help). -/
def dupFailureState : UIExecState :=
  { blankState with
    summary := some ⟨1, 0, 1, 0⟩,
    results := some
      [{ name := "login", suite := "auth", time_s := "0",
         status := "failed", message := "Timeout", details := "",
         attempt := 1, project := "UI", llm_label := none },
       { name := "login", suite := "auth", time_s := "0",
         status := "failed", message := "Timeout", details := "",
         attempt := 2, project := "UI", llm_label := none }] }

/-- Claim C10 counterexample: a run whose two attempts both failed the same
test with the same message, persisted over an empty store (so there is no
exact (name, message) match in any prior run), yields a recurrence count of
2 and the note "seen 2 times in last 7 days" — not count 1 and "NEW
failure" as claimed. -/
theorem persist_duplicate_counterexample :
    (persist_to_memory 0 [] dupFailureState).1 =
      save_run 0 [] "UI" ⟨1, 0, 1, 0⟩ (dupFailureState.results.getD []) "" ∧
    find_recurrences 0 (persist_to_memory 0 [] dupFailureState).1 "login"
      "Timeout" (some 7) = 2 ∧
    (persist_to_memory 0 [] dupFailureState).2.memory_notes.getD [] =
      ["login: seen 2 times in last 7 days",
       "login: seen 2 times in last 7 days"] ∧
    ¬ ("login" ++ ": NEW failure") ∈
      (persist_to_memory 0 [] dupFailureState).2.memory_notes.getD [] := by
  refine ⟨rfl, by decide, by decide, by decide⟩

/-- Claim C10 (amended): `persist_to_memory` saves the run before querying
recurrences, so the just-saved run's own failed rows are counted: for every
prior store and every failed case of the run, the subsequent
`find_recurrences` query returns at least 1.  If additionally no row of any
prior run matches the case's (name, message) exactly AND the run being
saved contains exactly one failed row with that (name, message) — the
counterexample shows the claim fails when the same failure recurs across
the run's own attempts — then the count is exactly 1 and the case is
annotated "NEW failure" (a recurrence note is produced only when the count
is strictly greater than 1). -/
theorem persist_counts_own_run (now : Int) (store : List RunRecord)
    (s : UIExecState) (c : Case)
    (hc : c ∈ s.results.getD []) (hst : c.status = "failed") :
    1 ≤ find_recurrences now (persist_to_memory now store s).1 c.name
      c.message (some 7) ∧
    ((∀ u ∈ store, ∀ r ∈ u.rows,
        rowMatches c.name c.message r = false) →
      ((s.results.getD []).filter
        (fun c2 => rowMatches c.name c.message (caseToRow c2))).length = 1 →
      find_recurrences now (persist_to_memory now store s).1 c.name
          c.message (some 7) = 1 ∧
        (c.name ++ ": NEW failure") ∈
          (persist_to_memory now store s).2.memory_notes.getD []) := by
  have hmatch : rowMatches c.name c.message (caseToRow c) = true := by
    simp [rowMatches, caseToRow, hst]
  have hnew : find_recurrences now
      [{ project := "UI", ts := now,
         total := (s.summary.getD emptySummary).total,
         passed := (s.summary.getD emptySummary).passed,
         failed := (s.summary.getD emptySummary).failed,
         skipped := (s.summary.getD emptySummary).skipped,
         llm_summary := s.llm_summary.getD "",
         rows := (s.results.getD []).map caseToRow }] c.name c.message
      (some 7) =
      ((s.results.getD []).filter
        (fun c2 => rowMatches c.name c.message (caseToRow c2))).length := by
    simp only [find_recurrences, List.filter_cons, List.filter_nil]
    rw [if_pos (by simp)]
    simp only [List.map_cons, List.map_nil, List.sum_cons, List.sum_nil]
    rw [List.filter_map, List.length_map]
    rfl
  have hsplit : find_recurrences now (persist_to_memory now store s).1
      c.name c.message (some 7) =
      find_recurrences now store c.name c.message (some 7) +
        ((s.results.getD []).filter
          (fun c2 => rowMatches c.name c.message (caseToRow c2))).length := by
    rw [persist_store_eq, find_recurrences_append, hnew]
  constructor
  · rw [hsplit]
    have hpos : 0 < ((s.results.getD []).filter
        (fun c2 => rowMatches c.name c.message (caseToRow c2))).length := by
      have hmem : c ∈ (s.results.getD []).filter
          (fun c2 => rowMatches c.name c.message (caseToRow c2)) :=
        List.mem_filter.mpr ⟨hc, hmatch⟩
      exact List.length_pos.mpr (List.ne_nil_of_mem hmem)
    omega
  · intro hprior huniq
    have hzero : find_recurrences now store c.name c.message (some 7) = 0 :=
      find_recurrences_eq_zero_of_no_match now c.name c.message 7 store
        hprior
    have hcount : find_recurrences now (persist_to_memory now store s).1
        c.name c.message (some 7) = 1 := by
      rw [hsplit, hzero, huniq]
    refine ⟨hcount, ?_⟩
    rw [persist_notes_eq, Option.getD_some]
    refine List.mem_filterMap.mpr ⟨c, hc, ?_⟩
    rw [if_pos (by simp [hst])]
    simp only [recurrenceNote, hcount]
    rfl

/-- A run with one failed case, never seen before. -/
def singleFailureState : UIExecState :=
  { blankState with
    summary := some ⟨1, 0, 1, 0⟩,
    results := some
      [{ name := "login", suite := "auth", time_s := "0",
         status := "failed", message := "Timeout", details := "",
         attempt := 1, project := "UI", llm_label := none }] }

/-- Claim C10 (amended) witness: persisting the single-failure run over an
empty store counts its own row (count 1) and annotates "NEW failure". -/
theorem persist_counts_own_run_witness :
    ({ name := "login", suite := "auth", time_s := "0", status := "failed",
       message := "Timeout", details := "", attempt := 1, project := "UI",
       llm_label := none } : Case) ∈ singleFailureState.results.getD [] ∧
    1 ≤ find_recurrences 0 (persist_to_memory 0 [] singleFailureState).1
      "login" "Timeout" (some 7) ∧
    find_recurrences 0 (persist_to_memory 0 [] singleFailureState).1
      "login" "Timeout" (some 7) = 1 ∧
    ("login" ++ ": NEW failure") ∈
      (persist_to_memory 0 [] singleFailureState).2.memory_notes.getD [] :=
  ⟨by decide,
    (persist_counts_own_run 0 [] singleFailureState
      { name := "login", suite := "auth", time_s := "0", status := "failed",
        message := "Timeout", details := "", attempt := 1, project := "UI",
        llm_label := none } (by decide) rfl).1,
    ((persist_counts_own_run 0 [] singleFailureState
      { name := "login", suite := "auth", time_s := "0", status := "failed",
        message := "Timeout", details := "", attempt := 1, project := "UI",
        llm_label := none } (by decide) rfl).2 (by decide) (by decide)).1,
    ((persist_counts_own_run 0 [] singleFailureState
      { name := "login", suite := "auth", time_s := "0", status := "failed",
        message := "Timeout", details := "", attempt := 1, project := "UI",
        llm_label := none } (by decide) rfl).2 (by decide) (by decide)).2⟩

end UIExec
